import Mathlib

/-!
Verification of the pastalinkbot catalog / classification pipeline.

Python strings are modelled as lists of characters (`Str`), Python dicts as
association lists in insertion order where assignment overwrites in place,
`collections.defaultdict(list)` buckets as association lists whose values are
appended to, and JSON values as the inductive type `Json`.  Fallible Python
code (constructors that raise, `json.loads`, dictionary indexing) is modelled
with `Option`.  Unicode tables (`str.lower`, NFD decomposition, combining
marks) are restricted to the Latin letters that occur in the repository's
data; `difflib.get_close_matches` (Python standard library, external to the
repository) is a parameter of the definitions that use it.
-/

set_option autoImplicit false

namespace PastaLinkBot

/-- Python strings are modelled as lists of characters. -/
abbrev Str := List Char

/-- Shorthand turning a Lean string literal into the model representation. -/
def str (s : String) : Str := s.data

/-- The ASCII apostrophe character. -/
def apos : Char := Char.ofNat 39

/-- The opening curly brace character. -/
def openBrace : Char := Char.ofNat 123

/-- The closing curly brace character. -/
def closeBrace : Char := Char.ofNat 125

/-- The vertical bar used by `CatalogIndex._make_combined_key`. -/
def pipeChar : Char := Char.ofNat 124

/-- Whitespace characters recognised by Python's `str.strip` / `str.split`
(space, tab, newline, carriage return, vertical tab, form feed). -/
def isPySpace (c : Char) : Bool :=
  c = ' ' || c = '\t' || c = '\n' || c = '\r' || c = Char.ofNat 11 || c = Char.ofNat 12

/-- Python `str.lstrip()`. -/
def pyLStrip (s : Str) : Str := s.dropWhile isPySpace

/-- Python `str.rstrip()`. -/
def pyRStrip (s : Str) : Str := (s.reverse.dropWhile isPySpace).reverse

/-- Python `str.strip()`. -/
def pyStrip (s : Str) : Str := pyRStrip (pyLStrip s)

/-- Lower-case table for the accented Latin letters appearing in the
repository's data; ASCII letters are handled arithmetically, all other
characters are left unchanged (as `str.lower` leaves uncased characters). -/
def lowerPairs : List (Char × Char) :=
  [('À', 'à'), ('Á', 'á'), ('È', 'è'), ('É', 'é'), ('Ì', 'ì'), ('Í', 'í'),
   ('Ò', 'ò'), ('Ó', 'ó'), ('Ù', 'ù'), ('Ú', 'ú')]

/-- Python `str.lower` on one character (restricted to the modelled alphabet). -/
def pyLowerChar (c : Char) : Char :=
  if 'A' ≤ c ∧ c ≤ 'Z' then Char.ofNat (c.toNat + 32)
  else (((lowerPairs.find? (fun p => p.1 = c)).map Prod.snd).getD c)

/-- Python `str.lower`. -/
def pyLower (s : Str) : Str := s.map pyLowerChar

/-- The Unicode combining grave accent (U+0300). -/
def combGrave : Char := Char.ofNat 0x300

/-- The Unicode combining acute accent (U+0301). -/
def combAcute : Char := Char.ofNat 0x301

/-- NFD decomposition of the precomposed lower-case Latin letters in the
modelled alphabet: each maps to its base letter followed by a combining mark. -/
def nfdPairs : List (Char × (Char × Char)) :=
  [('à', ('a', combGrave)), ('á', ('a', combAcute)),
   ('è', ('e', combGrave)), ('é', ('e', combAcute)),
   ('ì', ('i', combGrave)), ('í', ('i', combAcute)),
   ('ò', ('o', combGrave)), ('ó', ('o', combAcute)),
   ('ù', ('u', combGrave)), ('ú', ('u', combAcute))]

/-- NFD decomposition of one character (`unicodedata.normalize("NFD", ·)`),
restricted to the modelled alphabet. -/
def nfdChar (c : Char) : List Char :=
  match nfdPairs.find? (fun p => p.1 = c) with
  | some p => [p.2.1, p.2.2]
  | none => [c]

/-- Characters of Unicode category `Mn` among those `nfdChar` can produce. -/
def isCombiningMark (c : Char) : Bool := c = combGrave || c = combAcute

/-- Python `str.split()` (split on whitespace runs, dropping empty pieces). -/
def splitWs (s : Str) : List Str :=
  let step := fun (c : Char) (acc : Str × List Str) =>
    if isPySpace c then
      if acc.1 = [] then ([], acc.2) else ([], acc.1 :: acc.2)
    else (c :: acc.1, acc.2)
  let r := s.foldr step ([], [])
  if r.1 = [] then r.2 else r.1 :: r.2

/-- Python `" ".join(words)`. -/
def joinSpace : List Str → Str
  | [] => []
  | [w] => w
  | w :: ws => w ++ ' ' :: joinSpace ws

/-- Python `str.isprintable`, modelled as: not an ASCII control character.
(The repository's data contains no non-ASCII control or separator characters.) -/
def isPyPrintable (c : Char) : Bool := 32 ≤ c.toNat && c.toNat ≠ 127

/-- Model of `str.startswith`: `startsWith pat s` is true when `pat` is an
initial segment of `s`. -/
def startsWith : Str → Str → Bool
  | [], _ => true
  | _ :: _, [] => false
  | p :: ps, c :: cs => p = c && startsWith ps cs

/-- Python `str.find(char)`, returning `none` instead of `-1`. -/
def pyFindAux (c : Char) : Str → Nat → Option Nat
  | [], _ => none
  | x :: xs, i => if x = c then some i else pyFindAux c xs (i + 1)

/-- Index of the first occurrence of `c` in `s`, if any (`str.find`). -/
def pyFind (c : Char) (s : Str) : Option Nat := pyFindAux c s 0

/-- Index of the last occurrence of `c` in `s`, if any (`str.rfind`). -/
def pyRfind (c : Char) (s : Str) : Option Nat :=
  match pyFind c s.reverse with
  | none => none
  | some j => some (s.length - 1 - j)

/-- A Python dict modelled as an association list; `dictLookup` is `d[k]` /
`k in d` and `dictInsert` is `d[k] = v` (overwriting in place, as Python
dicts keep the original position of an updated key). -/
def dictLookup {α : Type} (k : Str) : List (Str × α) → Option α
  | [] => none
  | (k', v) :: rest => if k' = k then some v else dictLookup k rest

/-- Dict assignment `d[k] = v`. -/
def dictInsert {α : Type} (k : Str) (v : α) : List (Str × α) → List (Str × α)
  | [] => [(k, v)]
  | (k', v') :: rest => if k' = k then (k, v) :: rest else (k', v') :: dictInsert k v rest

/-- The keys of a dict, in order (`list(d.keys())`). -/
def dictKeys {α : Type} (d : List (Str × α)) : List Str := d.map Prod.fst

/-- `collections.defaultdict(list)`: `d[k].append(e)`. -/
def bucketAdd {α : Type} (k : Str) (e : α) : List (Str × List α) → List (Str × List α)
  | [] => [(k, [e])]
  | (k', l) :: rest =>
    if k' = k then (k', l ++ [e]) :: rest else (k', l) :: bucketAdd k e rest

/-- Combination of an optional existing bucket with newly appended entries. -/
def optAppend {α : Type} (o : Option (List α)) (l : List α) : Option (List α) :=
  match o, l with
  | none, [] => none
  | none, l => some l
  | some b, l => some (b ++ l)

/-- JSON values, as produced by `json.loads`.  Objects are in Python-dict
form: keys unique, insertion order, later assignments overwrite in place. -/
inductive Json where
  | null
  | bool (b : Bool)
  | num (q : Rat)
  | str (s : Str)
  | arr (elems : List Json)
  | obj (fields : List (Str × Json))
deriving Repr

/-- Python truthiness of a JSON value. -/
def jsonTruthy : Json → Bool
  | .null => false
  | .bool b => b
  | .num q => q ≠ 0
  | .str s => !s.isEmpty
  | .arr l => !l.isEmpty
  | .obj l => !l.isEmpty

/-- The string payload of a JSON value, when it is a string. -/
def asStr? : Json → Option Str
  | .str s => some s
  | _ => none

/-! JSON parsing (`json.loads`).  A recursive-descent parser over the JSON
grammar, with a fuel argument bounding recursion depth.  It covers the JSON
subset exercised by the repository (strings with the common escapes, integer
and decimal numbers, booleans, null, arrays, objects); objects are condensed
to Python-dict form with `dictInsert` (duplicate keys: the last wins). -/

/-- JSON insignificant whitespace. -/
def isJsonWs (c : Char) : Bool := c = ' ' || c = '\t' || c = '\n' || c = '\r'

/-- Drop leading JSON whitespace. -/
def skipWs (s : Str) : Str := s.dropWhile isJsonWs

/-- Decimal digit test. -/
def isDigitCh (c : Char) : Bool := '0' ≤ c && c ≤ '9'

/-- Value of one decimal digit. -/
def digitVal (c : Char) : Nat := c.toNat - 48

/-- Parse a JSON string literal body (after the opening quote), returning the
decoded characters and the remaining input after the closing quote. -/
def parseStringBody : Str → Option (Str × Str)
  | [] => none
  | c :: rest =>
    if c = '"' then some ([], rest)
    else if c = '\\' then
      match rest with
      | [] => none
      | e :: rest2 =>
        let dec : Option Char :=
          if e = '"' then some '"'
          else if e = '\\' then some '\\'
          else if e = '/' then some '/'
          else if e = 'n' then some '\n'
          else if e = 't' then some '\t'
          else if e = 'r' then some '\r'
          else if e = 'b' then some (Char.ofNat 8)
          else if e = 'f' then some (Char.ofNat 12)
          else none
        match dec with
        | none => none
        | some d =>
          match parseStringBody rest2 with
          | some (tail, rem) => some (d :: tail, rem)
          | none => none
    else
      match parseStringBody rest with
      | some (tail, rem) => some (c :: tail, rem)
      | none => none

/-- Parse a run of decimal digits into its value and length. -/
def parseDigits : Str → Option (Nat × Nat × Str)
  | s =>
    let ds := s.takeWhile isDigitCh
    if ds.isEmpty then none
    else some (ds.foldl (fun acc c => acc * 10 + digitVal c) 0, ds.length, s.drop ds.length)

/-- Parse a JSON number (optional sign, integer part, optional fraction;
exponents are not used by the repository's data and are not modelled). -/
def parseNumber (s : Str) : Option (Rat × Str) :=
  let (neg, s1) : Bool × Str :=
    match s with
    | c :: rest => if c = '-' then (true, rest) else (false, s)
    | [] => (false, s)
  match parseDigits s1 with
  | none => none
  | some (ip, _, s2) =>
    let (q, s3) : Rat × Str :=
      match s2 with
      | c :: rest =>
        if c = '.' then
          match parseDigits rest with
          | some (fp, fl, s4) => ((ip : Rat) + (fp : Rat) / ((10 : Rat) ^ fl), s4)
          | none => ((ip : Rat), s2)
        else ((ip : Rat), s2)
      | [] => ((ip : Rat), s2)
    some (if neg then -q else q, s3)

/-- Check that `lit` is an initial segment of the input and consume it. -/
def expectLit (lit : Str) (s : Str) : Option Str :=
  if startsWith lit s then some (s.drop lit.length) else none

mutual

/-- Parse one JSON value; `fuel` bounds the nesting depth. -/
def parseValue : Nat → Str → Option (Json × Str)
  | 0, _ => none
  | fuel + 1, s =>
    match skipWs s with
    | [] => none
    | c :: rest =>
      if c = '"' then
        match parseStringBody rest with
        | some (lit, rem) => some (.str lit, rem)
        | none => none
      else if c = 't' then (expectLit (str "rue") rest).map (fun r => (.bool true, r))
      else if c = 'f' then (expectLit (str "alse") rest).map (fun r => (.bool false, r))
      else if c = 'n' then (expectLit (str "ull") rest).map (fun r => (.null, r))
      else if c = openBrace then
        match skipWs rest with
        | c2 :: rest2 =>
          if c2 = closeBrace then some (.obj [], rest2)
          else parseMembers fuel (c2 :: rest2) []
        | [] => none
      else if c = '[' then
        match skipWs rest with
        | c2 :: rest2 =>
          if c2 = ']' then some (.arr [], rest2)
          else parseElements fuel (c2 :: rest2) []
        | [] => none
      else
        match parseNumber (c :: rest) with
        | some (q, rem) => some (.num q, rem)
        | none => none

/-- Parse the members of a JSON object (at least one), accumulating a dict. -/
def parseMembers : Nat → Str → List (Str × Json) → Option (Json × Str)
  | 0, _, _ => none
  | fuel + 1, s, acc =>
    match skipWs s with
    | c :: rest =>
      if c = '"' then
        match parseStringBody rest with
        | some (key, rem) =>
          match skipWs rem with
          | c2 :: rem2 =>
            if c2 = ':' then
              match parseValue fuel rem2 with
              | some (v, rem3) =>
                let acc' := dictInsert key v acc
                match skipWs rem3 with
                | c3 :: rem4 =>
                  if c3 = ',' then parseMembers fuel rem4 acc'
                  else if c3 = closeBrace then some (.obj acc', rem4)
                  else none
                | [] => none
              | none => none
            else none
          | [] => none
        | none => none
      else none
    | [] => none

/-- Parse the elements of a JSON array (at least one). -/
def parseElements : Nat → Str → List Json → Option (Json × Str)
  | 0, _, _ => none
  | fuel + 1, s, acc =>
    match parseValue fuel s with
    | some (v, rem) =>
      match skipWs rem with
      | c :: rem2 =>
        if c = ',' then parseElements fuel rem2 (acc ++ [v])
        else if c = ']' then some (.arr (acc ++ [v]), rem2)
        else none
      | [] => none
    | none => none

end

/-- Model of `json.loads`: parse one value and require only whitespace after. -/
def parseJson (s : Str) : Option Json :=
  match parseValue (s.length + 1) s with
  | some (v, rem) => if (skipWs rem).isEmpty then some v else none
  | none => none

/-! Catalog model (`core/models/intent.py` `CatalogEntry`,
`core/services/catalog.py` `CatalogService` / `CatalogIndex`). -/

/-- `config.constants.NATIONAL_REGION`. -/
def NATIONAL_REGION : Str := str "Nazionale"

/-- `CatalogService.__init__` default for `max_links_per_response`. -/
def maxLinksPerResponseDefault : Nat := 6

/-- One catalog entry after construction (`CatalogEntry`): `intent` is
lower-cased and stripped, `region`, `label` and `url` stripped; the optional
`description` and `tags` keep the raw JSON value the dataclass stores. -/
structure CatalogEntry where
  intent : Str
  region : Str
  label : Str
  url : Str
  description : Json := .null
  tags : Json := .null
deriving Repr

/-- Normalisation of the `description` field (`CatalogEntry._normalize_data`):
a truthy value must be a string (otherwise `.strip()` raises) and is stripped;
falsy values are stored unchanged. -/
def normalizeDescription (j : Json) : Option Json :=
  if jsonTruthy j then
    match j with
    | .str s => some (.str (pyStrip s))
    | _ => none
  else some j

/-- Normalisation of the `tags` field (`CatalogEntry._normalize_data`): a
truthy value is iterated, each element must be a string and is lower-cased
and stripped (iterating a string yields its one-character strings); falsy
values are stored unchanged. -/
def normalizeTags (j : Json) : Option Json :=
  if jsonTruthy j then
    match j with
    | .arr l =>
      (l.mapM asStr?).map (fun ss => .arr (ss.map (fun s => .str (pyStrip (pyLower s)))))
    | .str s => some (.arr (s.map (fun c => .str (pyStrip (pyLower [c])))))
    | _ => none
  else some j

/-- `CatalogEntry.from_dict` followed by `__post_init__` validation: required
fields present and truthy, `url` starts with an http/https scheme, then the
normalisation pass; any raised exception is modelled as `none`. -/
def mkCatalogEntry (o : List (Str × Json)) : Option CatalogEntry := do
  let intentJ ← dictLookup (str "intent") o
  let regionJ ← dictLookup (str "region") o
  let labelJ ← dictLookup (str "label") o
  let urlJ ← dictLookup (str "url") o
  let descJ := (dictLookup (str "description") o).getD .null
  let tagsJ := (dictLookup (str "tags") o).getD .null
  guard (jsonTruthy intentJ = true)
  guard (jsonTruthy regionJ = true)
  guard (jsonTruthy labelJ = true)
  guard (jsonTruthy urlJ = true)
  let urlS ← asStr? urlJ
  guard (startsWith (str "http://") urlS = true ∨ startsWith (str "https://") urlS = true)
  let intentS ← asStr? intentJ
  let regionS ← asStr? regionJ
  let labelS ← asStr? labelJ
  let desc ← normalizeDescription descJ
  let tags ← normalizeTags tagsJ
  pure { intent := pyStrip (pyLower intentS), region := pyStrip regionS,
         label := pyStrip labelS, url := pyStrip urlS,
         description := desc, tags := tags }

/-- One iteration of `CatalogService._validate_and_convert_entries`: non-dict
records and records whose conversion raises are skipped. -/
def convertRawEntry : Json → Option CatalogEntry
  | .obj o => mkCatalogEntry o
  | _ => none

/-- `CatalogService._validate_and_convert_entries`: each record is validated
individually, invalid records are skipped (logged as warnings in the source). -/
def validateAndConvertEntries (raw : List Json) : List CatalogEntry :=
  raw.filterMap convertRawEntry

/-- `CatalogIndex._make_combined_key`. -/
def combinedKey (intent region : Str) : Str := intent ++ pipeChar :: region

/-- Add one element to a set modelled as a duplicate-free list. -/
def setAdd (x : Str) (s : List Str) : List Str := if x ∈ s then s else s ++ [x]

/-- The in-memory catalog index (`CatalogIndex`). -/
structure CatalogIndex where
  entries : List CatalogEntry
  intentIndex : List (Str × List CatalogEntry) := []
  regionIndex : List (Str × List CatalogEntry) := []
  intentRegionIndex : List (Str × List CatalogEntry) := []
  regions : List Str := []
  intents : List Str := []
deriving Repr

/-- One loop iteration of `CatalogIndex._build_indexes`. -/
def indexStep (idx : CatalogIndex) (e : CatalogEntry) : CatalogIndex :=
  let idx :=
    if e.intent ≠ [] then
      { idx with intentIndex := bucketAdd e.intent e idx.intentIndex,
                 intents := setAdd e.intent idx.intents }
    else idx
  let idx :=
    if e.region ≠ [] then
      { idx with regionIndex := bucketAdd e.region e idx.regionIndex,
                 regions := if e.region ≠ NATIONAL_REGION then setAdd e.region idx.regions
                            else idx.regions }
    else idx
  if e.intent ≠ [] ∧ e.region ≠ [] then
    { idx with intentRegionIndex := bucketAdd (combinedKey e.intent e.region) e idx.intentRegionIndex }
  else idx

/-- `CatalogIndex.__init__` / `_build_indexes`. -/
def buildIndex (es : List CatalogEntry) : CatalogIndex :=
  es.foldl indexStep { entries := es }

/-- Truthiness of the optional `region` argument (`if region:` in Python is
false both for `None` and for the empty string). -/
def regionTruthy : Option Str → Bool
  | none => false
  | some s => !s.isEmpty

/-- `CatalogIndex.get_entries` (without the `lru_cache` wrapper, which only
memoises this pure function): exact `(intent, region)` bucket, then the
`(intent, "Nazionale")` bucket, then a manual filter of the intent bucket. -/
def CatalogIndex.getEntries (idx : CatalogIndex) (intent0 : Str) (region : Option Str) :
    List CatalogEntry :=
  if intent0 = [] then []
  else
    let intent := pyLower intent0
    let exact : Option (List CatalogEntry) :=
      if regionTruthy region then
        dictLookup (combinedKey intent (region.getD [])) idx.intentRegionIndex
      else none
    match exact with
    | some b => b
    | none =>
      match dictLookup (combinedKey intent NATIONAL_REGION) idx.intentRegionIndex with
      | some b => b
      | none =>
        match dictLookup intent idx.intentIndex with
        | some es =>
          es.filter (fun e =>
            if regionTruthy region then decide (e.region = region.getD [])
            else decide (e.region = NATIONAL_REGION))
        | none => []

/-- `CatalogService.get_links`: index lookup, region-omitted retry when a
regional query found nothing, then truncation to `max_links_per_response`.
(The statistics update has no effect on the returned list and is omitted.) -/
def getLinks (maxLinks : Nat) (idx : CatalogIndex) (intent : Str) (region : Option Str) :
    List CatalogEntry :=
  let entries := idx.getEntries intent region
  let entries :=
    if entries.isEmpty && regionTruthy region then idx.getEntries intent none else entries
  entries.take maxLinks

/-- Lexicographic comparison of strings by code point (Python `<=`). -/
def strLeBool : Str → Str → Bool
  | [], _ => true
  | _ :: _, [] => false
  | x :: xs, y :: ys => if x = y then strLeBool xs ys else decide (x.toNat < y.toNat)

/-- Insertion into a sorted list of strings. -/
def insortStr (x : Str) : List Str → List Str
  | [] => [x]
  | y :: ys => if strLeBool x y then x :: y :: ys else y :: insortStr x ys

/-- Python `sorted` on a list of strings. -/
def sortStrs (l : List Str) : List Str := l.foldr insortStr []

/-- `CatalogIndex.get_regions` (sorted, excludes the national sentinel). -/
def getRegions (idx : CatalogIndex) : List Str := sortStrs idx.regions

/-! Input validation model (`core/services/validator.py`). -/

/-- `ValidationResult` dataclass. -/
structure ValidationResult where
  is_valid : Bool
  normalized_value : Option Str := none
  error_message : Option Str := none
  suggestions : Option (List Str) := none
  original_value : Option Str := none
deriving DecidableEq, Repr

/-- `ValidationResult.valid`: `original_value` falls back to the normalized
value when the passed original is `None` or empty (Python `or`). -/
def ValidationResult.mkValid (nv : Str) (orig : Option Str) : ValidationResult :=
  { is_valid := true, normalized_value := some nv,
    original_value := some (match orig with
      | some o => if o = [] then nv else o
      | none => nv) }

/-- `ValidationResult.invalid`: suggestions default to the empty list. -/
def ValidationResult.mkInvalid (msg : Str) (orig : Option Str)
    (sugg : Option (List Str)) : ValidationResult :=
  { is_valid := false, error_message := some msg,
    suggestions := some (sugg.getD []), original_value := orig }

/-- `InputValidationService._normalize_text`: lower-case and strip, NFD
decomposition dropping combining marks, separator normalisation, whitespace
collapse.  (The apostrophe `replace` calls in the source substitute the ASCII
apostrophe for itself and are a no-op.) -/
def normalizeText (t : Str) : Str :=
  if t = [] then []
  else
    let t1 := pyStrip (pyLower t)
    let t2 := (t1.map nfdChar).flatten.filter (fun c => !isCombiningMark c)
    let t3 := t2.map (fun c => if c = '-' ∨ c = '_' then ' ' else c)
    joinSpace (splitWs t3)

/-- `InputValidationService.sanitize_input`: keep printable characters plus
newline/tab, collapse whitespace runs, trim. -/
def sanitizeInput (t : Str) : Str :=
  if t = [] then []
  else
    let s := t.filter (fun c => isPyPrintable c || c = '\n' || c = '\t')
    pyStrip (joinSpace (splitWs s))

/-- The canonical spelling containing an apostrophe, built explicitly. -/
def valleDAosta : Str := str "Valle d" ++ apos :: str "Aosta"

/-- The fixed alias table of `_build_region_aliases` (English names, city
names, alternate spellings), in source order. -/
def aliasMappings : List (Str × Str) :=
  [(str "lombardy", str "Lombardia"), (str "piedmont", str "Piemonte"),
   (str "tuscany", str "Toscana"), (str "sicily", str "Sicilia"),
   (str "sardinia", str "Sardegna"), (str "apulia", str "Puglia"),
   (str "roma", str "Lazio"), (str "rome", str "Lazio"),
   (str "milano", str "Lombardia"), (str "milan", str "Lombardia"),
   (str "napoli", str "Campania"), (str "naples", str "Campania"),
   (str "torino", str "Piemonte"), (str "turin", str "Piemonte"),
   (str "firenze", str "Toscana"), (str "florence", str "Toscana"),
   (str "bologna", str "Emilia-Romagna"), (str "venezia", str "Veneto"),
   (str "venice", str "Veneto"), (str "genova", str "Liguria"),
   (str "genoa", str "Liguria"), (str "bari", str "Puglia"),
   (str "palermo", str "Sicilia"), (str "catania", str "Sicilia"),
   (str "emilia romagna", str "Emilia-Romagna"),
   (str "friuli venezia giulia", str "Friuli-Venezia Giulia"),
   (str "trentino alto adige", str "Trentino-Alto Adige"),
   (str "valle daosta", valleDAosta)]

/-- `self.normalized_regions = {self._normalize_text(r): r for r in regions}`. -/
def normalizedRegionsDict (regions : List Str) : List (Str × Str) :=
  regions.foldl (fun d r => dictInsert (normalizeText r) r d) []

/-- `InputValidationService._build_region_aliases`: normalized alias table
entries whose canonical region is configured, then normalized region names. -/
def buildRegionAliases (regions : List Str) : List (Str × Str) :=
  let base := aliasMappings.foldl
    (fun d p => if p.2 ∈ regions then dictInsert (normalizeText p.1) p.2 d else d) []
  regions.foldl (fun d r => dictInsert (normalizeText r) r d) base

/-- The signature of `difflib.get_close_matches` (Python standard library,
external to this repository): word, candidates, maximum count, cutoff. -/
def GcmFun : Type := Str → List Str → Nat → Rat → List Str

/-- Validator configuration (`InputValidationService.__init__` arguments). -/
structure ValidatorConfig where
  regions : List Str
  maxMessageLength : Nat := 1000
  fuzzyMatchThreshold : Rat := 7 / 10
  suggestionThreshold : Rat := 2 / 5

/-- Append preserving first occurrence (`if canonical not in suggestions`). -/
def dedupAppend (acc : List Str) (x : Str) : List Str :=
  if x ∈ acc then acc else acc ++ [x]

/-- `InputValidationService._get_region_suggestions`: fuzzy matches over the
normalized region names and the aliases, deduplicated by canonical name and
truncated to `max_suggestions = 3`.  (A match returned by `gcm` is always one
of the candidate keys for well-formed `gcm`; a foreign match is skipped.) -/
def getRegionSuggestions (gcm : GcmFun) (regions : List Str) (suggThreshold : Rat)
    (normalizedInput : Str) : List Str :=
  if normalizedInput = [] then []
  else
    let nr := normalizedRegionsDict regions
    let regionMatches := gcm normalizedInput (dictKeys nr) 3 suggThreshold
    let s1 := regionMatches.foldl (fun acc m =>
      match dictLookup m nr with
      | some canonical => dedupAppend acc canonical
      | none => acc) []
    let al := buildRegionAliases regions
    let aliasMatches := gcm normalizedInput (dictKeys al) 3 suggThreshold
    let s2 := aliasMatches.foldl (fun acc m =>
      match dictLookup m al with
      | some canonical => dedupAppend acc canonical
      | none => acc) s1
    s2.take 3

/-- The message of `ValidationResult.invalid` for an unrecognised region. -/
def notRecognizedMsg (orig : Str) : Str :=
  str "Region " ++ apos :: orig ++ apos :: str " not recognized"

/-- `InputValidationService.validate_region`: empty check, sanitisation and
normalisation, direct match, alias match, case-insensitive literal match
(`self.regions` is a Python set; the match, when the earlier steps missed, is
order-independent and modelled by `find?` on the configured list), then the
fuzzy-acceptance step and the suggestion fallback. -/
def validateRegion (gcm : GcmFun) (cfg : ValidatorConfig) (region_text : Str) :
    ValidationResult :=
  if region_text = [] then
    ValidationResult.mkInvalid (str "Region cannot be empty") (some region_text) none
  else
    let original_text := pyStrip region_text
    let sanitized := sanitizeInput original_text
    let normalized_input := normalizeText sanitized
    match dictLookup normalized_input (normalizedRegionsDict cfg.regions) with
    | some canonical => ValidationResult.mkValid canonical (some original_text)
    | none =>
      match dictLookup normalized_input (buildRegionAliases cfg.regions) with
      | some canonical => ValidationResult.mkValid canonical (some original_text)
      | none =>
        match cfg.regions.find? (fun r => pyLower r = pyLower original_text) with
        | some r => ValidationResult.mkValid r (some original_text)
        | none =>
          let suggestions :=
            getRegionSuggestions gcm cfg.regions cfg.suggestionThreshold normalized_input
          if suggestions ≠ [] then
            match gcm normalized_input (dictKeys (normalizedRegionsDict cfg.regions)) 1
                cfg.fuzzyMatchThreshold with
            | m :: _ =>
              match dictLookup m (normalizedRegionsDict cfg.regions) with
              | some canonical => ValidationResult.mkValid canonical (some original_text)
              | none =>
                ValidationResult.mkInvalid (notRecognizedMsg original_text)
                  (some original_text) (some suggestions)
            | [] =>
              ValidationResult.mkInvalid (notRecognizedMsg original_text)
                (some original_text) (some suggestions)
          else
            ValidationResult.mkInvalid (notRecognizedMsg original_text)
              (some original_text) (some suggestions)

/-! Classification model (`core/models/intent.py` `ClassificationResult`,
`core/services/classifier.py` `ClassificationService`, `utils/decorators.py`
`retry`). -/

/-- `ClassificationResult` after successful construction.  The opaque
`raw_response` debugging field is omitted.  `region` and `needs_region` are
stored by the dataclass without type validation; a non-string `region` is
modelled by its textual rendering and a non-boolean `needs_region` by its
truthiness (the remote schema sends a string-or-null and a boolean; no claim
exercises the other cases). -/
structure ClassificationResult where
  intent : Str
  region : Option Str := none
  needs_region : Bool := false
  confidence : Rat := 0
deriving DecidableEq, Repr

/-- The stored `region` field for a given JSON value. -/
def jsonToRegion : Json → Option Str
  | .null => none
  | .str s => some s
  | v => some (reprStr v).data

/-- The values Python's `0.0 <= x <= 1.0` accepts without raising: numbers,
with booleans comparing as 0/1. -/
def jsonNumeric : Json → Option Rat
  | .num q => some q
  | .bool b => some (if b then 1 else 0)
  | _ => none

/-- `ClassificationResult.__post_init__` validation: a falsy or non-string
intent raises, the intent is lower-cased, a confidence outside `[0, 1]` (or
non-numeric, raising in the comparison) raises; `none` models the raise. -/
def mkClassificationResult (intentJ regionJ needsJ confJ : Json) :
    Option ClassificationResult :=
  match intentJ with
  | .str s =>
    if s = [] then none
    else
      match jsonNumeric confJ with
      | some q =>
        if 0 ≤ q ∧ q ≤ 1 then
          some { intent := pyLower s, region := jsonToRegion regionJ,
                 needs_region := jsonTruthy needsJ, confidence := q }
        else none
      | none => none
  | _ => none

/-- The default classification `ClassificationService` falls back to. -/
def defaultClassificationResult : ClassificationResult :=
  { intent := str "unknown" }

/-- The default classification data dict built by `_classify_internal` on
failure (`intent="unknown"`, `region=null`, `confidence=0.0`,
`needs_region=false`). -/
def defaultClassificationData : List (Str × Json) :=
  [(str "intent", .str (str "unknown")), (str "region", .null),
   (str "confidence", .num 0), (str "needs_region", .bool false)]

/-- Python `d.get(k, default)`. -/
def dictGetD (d : List (Str × Json)) (k : Str) (default : Json) : Json :=
  (dictLookup k d).getD default

/-- Python `d.setdefault(k, v)`: insert at the end only when absent. -/
def dictSetdefault (k : Str) (v : Json) (d : List (Str × Json)) : List (Str × Json) :=
  if (dictLookup k d).isSome then d else d ++ [(k, v)]

/-- The `setdefault` sequence of `_classify_internal` ensuring the four
required reply fields. -/
def applyReplyDefaults (d : List (Str × Json)) : List (Str × Json) :=
  dictSetdefault (str "needs_region") (.bool false)
    (dictSetdefault (str "confidence") (.num 0)
      (dictSetdefault (str "region") .null
        (dictSetdefault (str "intent") (.str (str "unknown")) d)))

/-- The brace-span extraction of `_classify_internal`: the substring from the
first `{` to the last `}` of the reply content, `none` when either is absent
(`ValueError("No JSON found in LLM response")`). -/
def braceSpan (content : Str) : Option Str :=
  match pyFind openBrace content, pyRfind closeBrace content with
  | some s, some e => some ((content.take (e + 1)).drop s)
  | _, _ => none

/-- The reply-processing part of `_classify_internal` on a received reply
content: strip, extract the brace span, `json.loads` it, fill missing fields
with defaults.  `none` models any raised exception (caught by the enclosing
handler, which substitutes the default classification data).  The source
serialises the resulting dict with `json.dumps` and `classify_async` parses
it back; the round trip is the identity and the dict is carried directly. -/
def classifyRepair (content0 : Str) : Option (List (Str × Json)) :=
  let content := pyStrip content0
  match braceSpan content with
  | none => none
  | some span =>
    match parseJson span with
    | some (.obj fields) => some (applyReplyDefaults fields)
    | _ => none

/-- The `ClassificationResult` construction of `classify_async` from parsed
classification data, with the exception fallback to the default result. -/
def resultFromData (data : List (Str × Json)) : ClassificationResult :=
  (mkClassificationResult
    (dictGetD data (str "intent") (.str (str "unknown")))
    (dictGetD data (str "region") .null)
    (dictGetD data (str "needs_region") (.bool false))
    (dictGetD data (str "confidence") (.num 0))).getD defaultClassificationResult

/-- A received HTTP response from the remote classifier: its status (checked
by `raise_for_status`) and the message content string of its JSON envelope. -/
structure HttpResponse where
  statusOk : Bool
  content : Str
deriving Repr

/-- An oracle giving the outcome of the `n`-th underlying POST to the remote
classifier: a network-level failure (`requests.RequestException`) or a
received response. -/
def PostOracle : Type := Nat → Except Unit HttpResponse

/-- Trace of a retried call: final outcome, number of POSTs made, sleeps. -/
structure RetryTrace where
  result : Except Unit HttpResponse
  calls : Nat
  delays : List Rat
deriving Repr

/-- The loop of the `retry` decorator's synchronous wrapper (`max_attempts`
runs; on a caught exception before the last attempt, sleep `delay` and double
it; the last failure is re-raised). -/
def retryLoop (o : PostOracle) : Nat → Nat → Rat → RetryTrace
  | _, 0, _ => { result := .error (), calls := 0, delays := [] }
  | attempt, remaining + 1, delay =>
    match o attempt with
    | .ok r => { result := .ok r, calls := 1, delays := [] }
    | .error e =>
      if remaining = 0 then { result := .error e, calls := 1, delays := [] }
      else
        let t := retryLoop o (attempt + 1) remaining (delay * 2)
        { result := t.result, calls := t.calls + 1, delays := delay :: t.delays }

/-- `_post_chat` as decorated by
`retry(max_attempts=3, delay_seconds=1.0, exceptions=(requests.RequestException,))`
(the backoff factor keeps its default 2.0). -/
def retryPost (o : PostOracle) : RetryTrace := retryLoop o 0 3 1

/-- One run of `_classify_internal` against a POST oracle: the retried POST,
`raise_for_status`, then reply processing; every exception path yields the
default classification data.  Returns the data and the number of POSTs. -/
def classifyInternalRun (o : PostOracle) : List (Str × Json) × Nat :=
  let t := retryPost o
  match t.result with
  | .error _ => (defaultClassificationData, t.calls)
  | .ok resp =>
    if resp.statusOk then
      ((classifyRepair resp.content).getD defaultClassificationData, t.calls)
    else (defaultClassificationData, t.calls)

/-- The `lru_cache` state of `ClassificationService._cached_classify`,
most-recently-used first, plus a counter of invocations of the uncached
`_classify_internal` (each of which performs the remote call). -/
structure ClassifyCacheState where
  cache : List ((Str × Str) × List (Str × Json)) := []
  maxsize : Nat := 1000
  internalCalls : Nat := 0
deriving Repr

/-- The cache-key hash `str(hash(text.lower().strip()[:100]))` of
`classify_async`.  Python's string hash is a fixed (per-process) pure
function of the normalized prefix; it is modelled by the prefix itself.
Collisions cannot change cache behaviour because the raw text is the other
component of the `lru_cache` key. -/
def cacheKeyHash (text : Str) : Str := (pyStrip (pyLower text)).take 100

/-- Lookup in the cache by full key. -/
def cacheLookup (k : Str × Str) : List ((Str × Str) × List (Str × Json)) →
    Option (List (Str × Json))
  | [] => none
  | (k', v) :: rest => if k' = k then some v else cacheLookup k rest

/-- Remove a key from the cache. -/
def cacheErase (k : Str × Str) : List ((Str × Str) × List (Str × Json)) →
    List ((Str × Str) × List (Str × Json))
  | [] => []
  | (k', v) :: rest => if k' = k then cacheErase k rest else (k', v) :: cacheErase k rest

/-- `self._cached_classify(text_hash, text)`: the `lru_cache`-wrapped
`_classify_internal`, keyed by the argument tuple `(text_hash, text)`; a hit
refreshes recency, a miss invokes `_classify_internal` and evicts the least
recently used entry beyond `maxsize`. -/
def classifyCached (internal : Str → List (Str × Json)) (text : Str)
    (st : ClassifyCacheState) : List (Str × Json) × ClassifyCacheState :=
  let key := (cacheKeyHash text, text)
  match cacheLookup key st.cache with
  | some v => (v, { st with cache := (key, v) :: cacheErase key st.cache })
  | none =>
    let v := internal text
    let newCache := ((key, v) :: st.cache).take st.maxsize
    (v, { st with cache := newCache, internalCalls := st.internalCalls + 1 })

/-- `classify_async`: empty input short-circuits to the default result;
otherwise the cached classification is consulted and the result constructed
(with the exception fallback folded into `resultFromData`). -/
def classifyAsyncStep (internal : Str → List (Str × Json)) (text : Str)
    (st : ClassifyCacheState) : ClassificationResult × ClassifyCacheState :=
  if text = [] ∨ pyStrip text = [] then (defaultClassificationResult, st)
  else
    let r := classifyCached internal text st
    (resultFromData r.1, r.2)

/-! Conversation model (`core/handlers/conversation.py`
`ConversationHandlers.handle_region_selection`). -/

/-- The per-user conversation state kept in `context.user_data`. -/
structure UserData where
  pending_intent : Option Str := none
  pending_request : Option Str := none
deriving DecidableEq, Repr

/-- The reply sent by the region-selection handler (the formatter renders
these to text; the rendering carries no additional state). -/
inductive BotResponse where
  | genericError
  | askRegion (examples : List Str)
  | links (intent : Str) (entries : List CatalogEntry)
  | noLinks
  | suggestions (region : Str) (suggestions : List Str)
deriving Repr

/-- `ConversationHandler.END` in python-telegram-bot. -/
def conversationEnd : Int := -1

/-- `ConversationState.ASK_REGION.value`. -/
def askRegionStateValue : Int := 0

/-- `ConversationHandlers._send_links_response`: look the links up and reply
with them, or with the `no_links` error when none were found. -/
def sendLinksResponse (maxLinks : Nat) (idx : CatalogIndex) (intent : Str)
    (region : Option Str) : BotResponse :=
  let links := getLinks maxLinks idx intent region
  if links.isEmpty then .noLinks else .links intent links

/-- The full outcome of one invocation of the region-selection handler. -/
structure HandlerOutcome where
  response : BotResponse
  userData : UserData
  ret : Int
deriving Repr

/-- `ConversationHandlers.handle_region_selection`: strip the message text;
without a pending intent reply with the generic error and end; empty text
re-prompts with up to 5 example regions; otherwise validate the text as a
region — on success send the links for the pending intent and the resolved
region, clear the pending state and end; on failure reply with the
suggestions and stay in the region-selection state. -/
def handleRegionSelection (gcm : GcmFun) (cfg : ValidatorConfig) (maxLinks : Nat)
    (idx : CatalogIndex) (msgText : Str) (ud : UserData) : HandlerOutcome :=
  let region_text := pyStrip msgText
  match ud.pending_intent with
  | none => { response := .genericError, userData := ud, ret := conversationEnd }
  | some pending_intent =>
    if region_text = [] then
      { response := .askRegion ((getRegions idx).take 5), userData := ud,
        ret := askRegionStateValue }
    else
      let vr := validateRegion gcm cfg region_text
      if vr.is_valid then
        { response := sendLinksResponse maxLinks idx pending_intent vr.normalized_value,
          userData := { ud with pending_intent := none, pending_request := none },
          ret := conversationEnd }
      else
        { response := .suggestions region_text (vr.suggestions.getD []),
          userData := ud, ret := askRegionStateValue }

/-! Concrete instances used to evaluate the definitions. -/

/-- A region list as configured from the sample catalog. -/
def sampleRegions : List Str :=
  [str "Lombardia", str "Lazio", str "Toscana", str "Veneto", str "Piemonte"]

/-- A `get_close_matches` instance finding no close matches (an input far
from every candidate). -/
def gcmNone : GcmFun := fun _ _ _ _ => []

/-- A validator configured with the sample regions and source defaults. -/
def sampleConfig : ValidatorConfig := { regions := sampleRegions }

/-- The malformed remote reply of the claim: a JSON object surrounded by
leading and trailing commentary. -/
def c5ExampleContent : Str :=
  str "blah \x7b\"intent\":\"greeting\"\x7d trailing junk"

/-- The classification produced from a received reply content
(`_classify_internal` reply processing followed by the `classify_async`
result construction). -/
def classifyContentResult (content : Str) : ClassificationResult :=
  resultFromData ((classifyRepair content).getD defaultClassificationData)

/-- A dataset record that is valid in every field. -/
def goodRaw : Json :=
  .obj [(str "intent", .str (str "cup")), (str "region", .str (str "Lazio")),
        (str "label", .str (str "CUP Lazio")), (str "url", .str (str "https://cup.lazio.it"))]

/-- A dataset record whose `url` lacks an http/https scheme. -/
def badUrlRaw : Json :=
  .obj [(str "intent", .str (str "cup")), (str "region", .str (str "Lazio")),
        (str "label", .str (str "CUP ftp")), (str "url", .str (str "ftp://cup.lazio.it"))]

/-- A loadable dataset record whose intent contains the combined-key
separator character. -/
def pipeIntentRaw : Json :=
  .obj [(str "intent", .str (str "a|b")), (str "region", .str (str "c")),
        (str "label", .str (str "lbl")), (str "url", .str (str "https://example.org"))]

/-- A national catalog entry for the `cup` intent. -/
def natCupEntry : CatalogEntry :=
  { intent := str "cup", region := NATIONAL_REGION, label := str "CUP",
    url := str "https://cup.it" }

/-- A Lazio catalog entry for the `cup` intent. -/
def lazioCupEntry : CatalogEntry :=
  { intent := str "cup", region := str "Lazio", label := str "CUP Lazio",
    url := str "https://cup.lazio.it" }

/-- A remote-call stub returning the default classification data. -/
def stubInternal : Str → List (Str × Json) := fun _ => defaultClassificationData

/-- A session that is awaiting a region for the `cup` intent. -/
def awaitingCupUserData : UserData :=
  { pending_intent := some (str "cup"), pending_request := some (str "prenota visita") }

/-- A fresh classification cache with the default capacity. -/
def freshCacheState : ClassifyCacheState := {}

/-- A POST oracle whose every attempt fails at the network level. -/
def alwaysFailOracle : PostOracle := fun _ => .error ()

/-- A POST oracle that immediately returns an OK response whose content
contains no JSON object. -/
def malformedReplyOracle : PostOracle :=
  fun _ => .ok { statusOk := true, content := str "no json here" }

/-! Supporting lemmas. -/

theorem length_take_le' {α : Type} (n : Nat) (l : List α) : (l.take n).length ≤ n := by
  simp [List.length_take]

theorem mkClassificationResult_confidence (i r n c : Json) (res : ClassificationResult)
    (h : mkClassificationResult i r n c = some res) :
    0 ≤ res.confidence ∧ res.confidence ≤ 1 := by
  unfold mkClassificationResult at h
  cases i <;> simp at h
  obtain ⟨-, h⟩ := h
  cases hq : jsonNumeric c with
  | none => rw [hq] at h; simp at h
  | some q =>
    rw [hq] at h
    simp only [] at h
    by_cases hr : 0 ≤ q ∧ q ≤ 1
    · rw [if_pos hr] at h
      cases h
      exact hr
    · rw [if_neg hr] at h; simp at h

/-- C3: the list of catalog entries returned by the catalog lookup is
truncated to the configured `max_links_per_response` (default 6), however
many entries match. -/
theorem links_bounded_by_max (maxLinks : Nat) (idx : CatalogIndex) (intent : Str)
    (region : Option Str) :
    (getLinks maxLinks idx intent region).length ≤ maxLinks ∧
    (getLinks maxLinksPerResponseDefault idx intent region).length ≤ 6 := by
  constructor
  · exact length_take_le' maxLinks _
  · exact length_take_le' 6 _

/-- C8: the classification constructed from any classifier reply data has its
confidence within the interval `[0, 1]` (an out-of-range confidence makes the
`ClassificationResult` constructor raise, and the fallback default has
confidence 0). -/
theorem classification_confidence_in_unit_interval (data : List (Str × Json)) :
    0 ≤ (resultFromData data).confidence ∧ (resultFromData data).confidence ≤ 1 := by
  unfold resultFromData
  cases h : mkClassificationResult
      (dictGetD data (str "intent") (.str (str "unknown")))
      (dictGetD data (str "region") .null)
      (dictGetD data (str "needs_region") (.bool false))
      (dictGetD data (str "confidence") (.num 0)) with
  | none => simp [defaultClassificationResult]
  | some res =>
    simpa using mkClassificationResult_confidence _ _ _ _ res h

theorem dictLookup_bucketAdd {α : Type} (k k' : Str) (e : α) (d : List (Str × List α)) :
    dictLookup k (bucketAdd k' e d) =
      if k' = k then some ((dictLookup k d).getD [] ++ [e]) else dictLookup k d := by
  induction d with
  | nil => by_cases h : k' = k <;> simp [bucketAdd, dictLookup, h]
  | cons hd tl ih =>
    obtain ⟨k'', l⟩ := hd
    by_cases h1 : k'' = k'
    · subst h1
      by_cases h2 : k'' = k
      · subst h2
        simp [bucketAdd, dictLookup]
      · simp [bucketAdd, dictLookup, h2]
    · by_cases h2 : k'' = k
      · subst h2
        have hk : ¬k' = k'' := fun h => h1 h.symm
        simp [bucketAdd, dictLookup, h1, hk]
      · simp [bucketAdd, dictLookup, h1, h2, ih]

theorem optAppend_nil {α : Type} (o : Option (List α)) : optAppend o [] = o := by
  cases o <;> simp [optAppend]

theorem dictLookup_foldl_buckets {α : Type} (p : α → Prop) [DecidablePred p]
    (key : α → Str) (k : Str) :
    ∀ (es : List α) (d : List (Str × List α)),
      dictLookup k (es.foldl (fun d e => if p e then bucketAdd (key e) e d else d) d) =
        optAppend (dictLookup k d) (es.filter (fun e => decide (p e ∧ key e = k)))
  | [], d => by simp [optAppend_nil]
  | e :: es, d => by
    rw [List.foldl_cons, dictLookup_foldl_buckets p key k es]
    by_cases hp : p e
    · rw [if_pos hp, dictLookup_bucketAdd]
      by_cases hk : key e = k
      · rw [if_pos hk]
        have hf : (e :: es).filter (fun e => decide (p e ∧ key e = k)) =
            e :: es.filter (fun e => decide (p e ∧ key e = k)) := by
          simp [List.filter_cons, hp, hk]
        rw [hf]
        cases hd : dictLookup k d <;> cases hes : es.filter (fun e => decide (p e ∧ key e = k)) <;>
          simp [optAppend, hd]
      · rw [if_neg hk]
        have hf : (e :: es).filter (fun e => decide (p e ∧ key e = k)) =
            es.filter (fun e => decide (p e ∧ key e = k)) := by
          simp [List.filter_cons, hk]
        rw [hf]
    · rw [if_neg hp]
      have hf : (e :: es).filter (fun e => decide (p e ∧ key e = k)) =
          es.filter (fun e => decide (p e ∧ key e = k)) := by
        simp [List.filter_cons, hp]
      rw [hf]

theorem indexStep_intentRegionIndex (idx : CatalogIndex) (e : CatalogEntry) :
    (indexStep idx e).intentRegionIndex =
      if e.intent ≠ [] ∧ e.region ≠ [] then
        bucketAdd (combinedKey e.intent e.region) e idx.intentRegionIndex
      else idx.intentRegionIndex := by
  unfold indexStep
  split_ifs <;> rfl

theorem indexStep_intentIndex (idx : CatalogIndex) (e : CatalogEntry) :
    (indexStep idx e).intentIndex =
      if e.intent ≠ [] then bucketAdd e.intent e idx.intentIndex else idx.intentIndex := by
  unfold indexStep
  split_ifs <;> rfl

theorem buildIndex_intentRegionIndex_eq (es : List CatalogEntry) :
    ∀ (idx : CatalogIndex),
      (es.foldl indexStep idx).intentRegionIndex =
        es.foldl (fun d e => if e.intent ≠ [] ∧ e.region ≠ [] then
          bucketAdd (combinedKey e.intent e.region) e d else d) idx.intentRegionIndex := by
  induction es with
  | nil => intro idx; rfl
  | cons e es ih =>
    intro idx
    rw [List.foldl_cons, List.foldl_cons, ih, indexStep_intentRegionIndex]

theorem buildIndex_intentIndex_eq (es : List CatalogEntry) :
    ∀ (idx : CatalogIndex),
      (es.foldl indexStep idx).intentIndex =
        es.foldl (fun d e => if e.intent ≠ [] then bucketAdd e.intent e d else d)
          idx.intentIndex := by
  induction es with
  | nil => intro idx; rfl
  | cons e es ih =>
    intro idx
    rw [List.foldl_cons, List.foldl_cons, ih, indexStep_intentIndex]

/-- The combined `(intent, region)` bucket of the built index is exactly the
filter of the entry list by combined key (in original catalog order). -/
theorem lookup_intentRegionIndex (es : List CatalogEntry) (k : Str) :
    dictLookup k (buildIndex es).intentRegionIndex =
      optAppend none (es.filter (fun e =>
        decide ((e.intent ≠ [] ∧ e.region ≠ []) ∧ combinedKey e.intent e.region = k))) := by
  unfold buildIndex
  rw [buildIndex_intentRegionIndex_eq]
  have := dictLookup_foldl_buckets (fun e : CatalogEntry => e.intent ≠ [] ∧ e.region ≠ [])
    (fun e => combinedKey e.intent e.region) k es []
  simpa using this

/-- The intent bucket of the built index is exactly the filter of the entry
list by intent. -/
theorem lookup_intentIndex (es : List CatalogEntry) (k : Str) :
    dictLookup k (buildIndex es).intentIndex =
      optAppend none (es.filter (fun e => decide (e.intent ≠ [] ∧ e.intent = k))) := by
  unfold buildIndex
  rw [buildIndex_intentIndex_eq]
  have := dictLookup_foldl_buckets (fun e : CatalogEntry => e.intent ≠ [])
    (fun e => e.intent) k es []
  simpa using this

theorem pipe_not_mem_national : pipeChar ∉ NATIONAL_REGION := by decide

theorem pipe_mem_of_combinedKey_eq {a b l : Str} (h : combinedKey a b = l) :
    pipeChar ∈ l := by
  rw [← h]
  unfold combinedKey
  exact List.mem_append_right a (List.mem_cons_self pipeChar b)

/-- C1: when the exact `(intent, region)` bucket of the catalog index is
absent but the `(intent, "Nazionale")` bucket exists, `get_entries` returns
exactly the national bucket (the entries of the catalog whose combined key is
the national one, in catalog order). -/
theorem getEntries_national_fallback (es : List CatalogEntry) (intent region : Str)
    (hAbsent : es.filter (fun e =>
        decide ((e.intent ≠ [] ∧ e.region ≠ []) ∧
          combinedKey e.intent e.region = combinedKey (pyLower intent) region)) = [])
    (hNat : es.filter (fun e =>
        decide ((e.intent ≠ [] ∧ e.region ≠ []) ∧
          combinedKey e.intent e.region = combinedKey (pyLower intent) NATIONAL_REGION)) ≠ []) :
    (buildIndex es).getEntries intent (some region) =
      es.filter (fun e =>
        decide ((e.intent ≠ [] ∧ e.region ≠ []) ∧
          combinedKey e.intent e.region = combinedKey (pyLower intent) NATIONAL_REGION)) := by
  have hIntent : intent ≠ [] := by
    intro hI
    subst hI
    obtain ⟨e, he⟩ := List.exists_mem_of_ne_nil _ hNat
    have hp := (List.mem_filter.mp he).2
    have hp' := of_decide_eq_true hp
    obtain ⟨⟨hne, -⟩, hkey⟩ := hp'
    obtain ⟨a, t, ha⟩ : ∃ a t, e.intent = a :: t := by
      cases hi : e.intent with
      | nil => exact absurd hi hne
      | cons a t => exact ⟨a, t, rfl⟩
    rw [ha] at hkey
    have hkey' : a :: (t ++ pipeChar :: e.region) = pipeChar :: NATIONAL_REGION := by
      simpa [combinedKey, pyLower] using hkey
    have hmem : pipeChar ∈ t ++ pipeChar :: e.region :=
      List.mem_append_right t (List.mem_cons_self pipeChar e.region)
    have htail : t ++ pipeChar :: e.region = NATIONAL_REGION := (List.cons.injEq _ _ _ _ ▸ hkey').2
    rw [htail] at hmem
    exact pipe_not_mem_national hmem
  have hExact : dictLookup (combinedKey (pyLower intent) region)
      (buildIndex es).intentRegionIndex = none := by
    rw [lookup_intentRegionIndex, hAbsent]; rfl
  have hNatLookup : dictLookup (combinedKey (pyLower intent) NATIONAL_REGION)
      (buildIndex es).intentRegionIndex =
        some (es.filter (fun e =>
          decide ((e.intent ≠ [] ∧ e.region ≠ []) ∧
            combinedKey e.intent e.region = combinedKey (pyLower intent) NATIONAL_REGION))) := by
    rw [lookup_intentRegionIndex]
    cases hf : es.filter (fun e =>
        decide ((e.intent ≠ [] ∧ e.region ≠ []) ∧
          combinedKey e.intent e.region = combinedKey (pyLower intent) NATIONAL_REGION)) with
    | nil => exact absurd hf hNat
    | cons a l => simp [optAppend]
  unfold CatalogIndex.getEntries
  rw [if_neg hIntent]
  by_cases hR : region = []
  · subst hR
    simp only [regionTruthy, List.isEmpty_nil, Bool.not_true, if_false, Bool.false_eq_true,
      hNatLookup]
  · have hT : regionTruthy (some region) = true := by
      simp [regionTruthy, List.isEmpty_iff, hR]
    simp only [hT, if_true, Option.getD_some, hExact, hNatLookup]

/-- The claim C1 theorem evaluated at a concrete catalog: a `cup` query for
`Lazio` with only a national `cup` entry returns the national bucket. -/
theorem getEntries_national_fallback_witness :
    (buildIndex [natCupEntry]).getEntries (str "cup") (some (str "Lazio")) = [natCupEntry] := by
  have h := getEntries_national_fallback [natCupEntry] (str "cup") (str "Lazio") rfl
    (fun hh => List.cons_ne_nil natCupEntry [] hh)
  exact h.trans rfl

theorem combinedKey_inj : ∀ (a c b d : Str), pipeChar ∉ a → pipeChar ∉ c →
    combinedKey a b = combinedKey c d → a = c ∧ b = d
  | [], [], b, d, _, _, h => ⟨rfl, by simpa [combinedKey] using h⟩
  | [], c :: cs, b, d, _, hc, h => by
    have : pipeChar = c := by simpa [combinedKey] using congrArg (fun l => l.head?) h
    exact absurd (this ▸ List.mem_cons_self c cs) hc
  | a :: as, [], b, d, ha, _, h => by
    have : a = pipeChar := by simpa [combinedKey] using congrArg (fun l => l.head?) h
    exact absurd (this ▸ List.mem_cons_self a as) ha
  | a :: as, c :: cs, b, d, ha, hc, h => by
    have hh : a = c ∧ combinedKey as b = combinedKey cs d := by
      simpa [combinedKey] using h
    have ha' : pipeChar ∉ as := fun hm => ha (List.mem_cons_of_mem a hm)
    have hc' : pipeChar ∉ cs := fun hm => hc (List.mem_cons_of_mem c hm)
    have ih := combinedKey_inj as cs b d ha' hc' hh.2
    exact ⟨by rw [hh.1, ih.1], ih.2⟩

theorem optAppend_none_eq_some {α : Type} {f b : List α} (h : optAppend none f = some b) :
    f = b := by
  cases f with
  | nil => simp [optAppend] at h
  | cons x l => simpa [optAppend] using h

theorem getEntries_mem_characterization (es : List CatalogEntry) (intent0 : Str)
    (region : Option Str) (e : CatalogEntry)
    (he : e ∈ (buildIndex es).getEntries intent0 region) :
    e ∈ es ∧
      ((regionTruthy region = true ∧
          combinedKey e.intent e.region = combinedKey (pyLower intent0) (region.getD [])) ∨
       combinedKey e.intent e.region = combinedKey (pyLower intent0) NATIONAL_REGION ∨
       (regionTruthy region = true ∧ e.region = region.getD []) ∨
       (regionTruthy region = false ∧ e.region = NATIONAL_REGION)) := by
  unfold CatalogIndex.getEntries at he
  by_cases hI : intent0 = []
  · rw [if_pos hI] at he; cases he
  · rw [if_neg hI] at he
    simp only at he
    by_cases hT : regionTruthy region = true
    · rw [if_pos hT] at he
      cases h1 : dictLookup (combinedKey (pyLower intent0) (region.getD []))
          (buildIndex es).intentRegionIndex with
      | some b =>
        rw [h1] at he
        have hb := optAppend_none_eq_some ((lookup_intentRegionIndex es _).symm.trans h1)
        rw [← hb] at he
        have hm := List.mem_filter.mp he
        have hp := of_decide_eq_true hm.2
        exact ⟨hm.1, Or.inl ⟨hT, hp.2⟩⟩
      | none =>
        rw [h1] at he
        cases h2 : dictLookup (combinedKey (pyLower intent0) NATIONAL_REGION)
            (buildIndex es).intentRegionIndex with
        | some b =>
          rw [h2] at he
          have hb := optAppend_none_eq_some ((lookup_intentRegionIndex es _).symm.trans h2)
          rw [← hb] at he
          have hm := List.mem_filter.mp he
          have hp := of_decide_eq_true hm.2
          exact ⟨hm.1, Or.inr (Or.inl hp.2)⟩
        | none =>
          rw [h2] at he
          cases h3 : dictLookup (pyLower intent0) (buildIndex es).intentIndex with
          | some l =>
            rw [h3] at he
            have hb := optAppend_none_eq_some ((lookup_intentIndex es _).symm.trans h3)
            rw [← hb] at he
            have hm := List.mem_filter.mp he
            have hmm := List.mem_filter.mp hm.1
            rw [if_pos hT] at hm
            exact ⟨hmm.1, Or.inr (Or.inr (Or.inl ⟨hT, of_decide_eq_true hm.2⟩))⟩
          | none => rw [h3] at he; cases he
    · rw [if_neg hT] at he
      cases h2 : dictLookup (combinedKey (pyLower intent0) NATIONAL_REGION)
          (buildIndex es).intentRegionIndex with
      | some b =>
        rw [h2] at he
        have hb := optAppend_none_eq_some ((lookup_intentRegionIndex es _).symm.trans h2)
        rw [← hb] at he
        have hm := List.mem_filter.mp he
        have hp := of_decide_eq_true hm.2
        exact ⟨hm.1, Or.inr (Or.inl hp.2)⟩
      | none =>
        rw [h2] at he
        cases h3 : dictLookup (pyLower intent0) (buildIndex es).intentIndex with
        | some l =>
          rw [h3] at he
          have hb := optAppend_none_eq_some ((lookup_intentIndex es _).symm.trans h3)
          rw [← hb] at he
          have hm := List.mem_filter.mp he
          have hmm := List.mem_filter.mp hm.1
          rw [if_neg hT] at hm
          have hT' : regionTruthy region = false := by
            cases hrt : regionTruthy region with
            | false => rfl
            | true => exact absurd hrt hT
          exact ⟨hmm.1, Or.inr (Or.inr (Or.inr ⟨hT', of_decide_eq_true hm.2⟩))⟩
        | none => rw [h3] at he; cases he

/-- C10 (amended): provided no intent — neither the lower-cased requested
intent nor any loaded entry's intent — contains the combined-key separator
`|`, every entry returned by `get_links` for a regional request belongs to
the requested region or to the national sentinel. -/
theorem getLinks_region_invariant (maxLinks : Nat) (es : List CatalogEntry)
    (intent region : Str)
    (hpI : pipeChar ∉ pyLower intent)
    (hpE : ∀ e ∈ es, pipeChar ∉ e.intent) :
    ∀ e ∈ getLinks maxLinks (buildIndex es) intent (some region),
      e.region = region ∨ e.region = NATIONAL_REGION := by
  intro e he
  unfold getLinks at he
  simp only at he
  have he' := List.mem_of_mem_take he
  by_cases hc : (((buildIndex es).getEntries intent (some region)).isEmpty &&
      regionTruthy (some region)) = true
  · rw [if_pos hc] at he'
    have hch := getEntries_mem_characterization es intent none e he'
    obtain ⟨hm, hd⟩ := hch
    rcases hd with ⟨hft, -⟩ | hk | ⟨hft, -⟩ | ⟨-, hr⟩
    · exact absurd hft (by simp [regionTruthy])
    · exact Or.inr (combinedKey_inj e.intent (pyLower intent) e.region NATIONAL_REGION
        (hpE e hm) hpI hk).2
    · exact absurd hft (by simp [regionTruthy])
    · exact Or.inr hr
  · rw [if_neg hc] at he'
    have hch := getEntries_mem_characterization es intent (some region) e he'
    obtain ⟨hm, hd⟩ := hch
    rcases hd with ⟨-, hk⟩ | hk | ⟨-, hr⟩ | ⟨-, hr⟩
    · exact Or.inl (combinedKey_inj e.intent (pyLower intent) e.region region
        (hpE e hm) hpI hk).2
    · exact Or.inr (combinedKey_inj e.intent (pyLower intent) e.region NATIONAL_REGION
        (hpE e hm) hpI hk).2
    · exact Or.inl hr
    · exact Or.inr hr

/-- The amended C10 theorem evaluated at a concrete catalog with a regional
and a national `cup` entry, at the concrete entry the lookup returns. -/
theorem getLinks_region_invariant_witness :
    lazioCupEntry.region = str "Lazio" ∨ lazioCupEntry.region = NATIONAL_REGION :=
  getLinks_region_invariant 6 [lazioCupEntry, natCupEntry] (str "cup") (str "Lazio")
    (by decide) (by decide) lazioCupEntry (List.mem_cons_self lazioCupEntry [])

/-- C10 as frozen is false: a loadable entry whose intent contains the
combined-key separator `|` is returned for a request with a different
region — `get_links("a", "b|c")` returns the entry for intent `a|b`, region
`c`, which is neither the requested region nor the national sentinel. -/
theorem getLinks_region_invariant_counterexample :
    getLinks 6 (buildIndex (validateAndConvertEntries [pipeIntentRaw])) (str "a")
        (some (str "b|c")) =
      [{ intent := str "a|b", region := str "c", label := str "lbl",
         url := str "https://example.org" }] ∧
    ¬(str "c" = str "b|c" ∨ str "c" = NATIONAL_REGION) := by
  exact ⟨rfl, by decide⟩

theorem startsWith_iff : ∀ (p s : Str), startsWith p s = true ↔ ∃ t, s = p ++ t
  | [], s => by simp [startsWith]
  | p :: ps, [] => by simp [startsWith]
  | p :: ps, c :: cs => by
    constructor
    · intro h
      have h' := h
      unfold startsWith at h'
      have hpc : p = c := by
        by_cases hpc : p = c
        · exact hpc
        · simp [hpc] at h'
      subst hpc
      simp at h'
      obtain ⟨t, ht⟩ := (startsWith_iff ps cs).mp h'
      exact ⟨t, by simp [ht]⟩
    · rintro ⟨t, ht⟩
      obtain ⟨h1, h2⟩ := List.cons.injEq _ _ _ _ ▸ ht
      subst h1
      unfold startsWith
      simp
      exact (startsWith_iff ps cs).mpr ⟨t, h2⟩

theorem dropWhile_of_all_false {q : Char → Bool} : ∀ (l : Str),
    (∀ c ∈ l, q c = false) → l.dropWhile q = l
  | [], _ => rfl
  | c :: cs, h => by
    have hc := h c (List.mem_cons_self c cs)
    simp [List.dropWhile, hc]

theorem dropWhile_append_eq {q : Char → Bool} : ∀ (a b : Str),
    (a ++ b).dropWhile q =
      if (a.dropWhile q).isEmpty then b.dropWhile q else a.dropWhile q ++ b
  | [], b => by simp
  | c :: cs, b => by
    by_cases hc : q c = true
    · simp [List.dropWhile, hc, dropWhile_append_eq cs b]
    · have hc' : q c = false := by
        cases h : q c with
        | false => rfl
        | true => exact absurd h hc
      simp [List.dropWhile, hc']

/-- Stripping preserves a non-empty prefix made of non-whitespace characters
(used for the URL scheme after `CatalogEntry._normalize_data` strips). -/
theorem startsWith_pyStrip (p s : Str) (hp : p ≠ [])
    (hnp : ∀ c ∈ p, isPySpace c = false) (h : startsWith p s = true) :
    startsWith p (pyStrip s) = true := by
  obtain ⟨t, rfl⟩ := (startsWith_iff p s).mp h
  have hL : pyLStrip (p ++ t) = p ++ t := by
    cases p with
    | nil => exact absurd rfl hp
    | cons c cs =>
      have hc := hnp c (List.mem_cons_self c cs)
      simp [pyLStrip, List.dropWhile, hc]
  have hR : ∃ u, pyRStrip (p ++ t) = p ++ u := by
    unfold pyRStrip
    rw [List.reverse_append, dropWhile_append_eq]
    by_cases he : (t.reverse.dropWhile isPySpace).isEmpty = true
    · rw [if_pos he]
      rw [dropWhile_of_all_false p.reverse (fun c hc => hnp c (List.mem_reverse.mp hc))]
      exact ⟨[], by simp⟩
    · rw [if_neg he]
      exact ⟨(t.reverse.dropWhile isPySpace).reverse, by simp⟩
  unfold pyStrip
  rw [hL]
  obtain ⟨u, hu⟩ := hR
  rw [hu]
  exact (startsWith_iff p (p ++ u)).mpr ⟨u, rfl⟩

theorem guard_if_eq_some {c : Prop} [Decidable c] {u : Unit}
    (h : (if c then (some () : Option Unit) else failure) = some u) : c := by
  by_cases hc : c
  · exact hc
  · rw [if_neg hc] at h
    exact Option.noConfusion h

theorem mkCatalogEntry_url_scheme (o : List (Str × Json)) (e : CatalogEntry)
    (h : mkCatalogEntry o = some e) :
    startsWith (str "http://") e.url = true ∨ startsWith (str "https://") e.url = true := by
  unfold mkCatalogEntry at h
  simp only [bind, Option.bind_eq_some, guard, Option.some.injEq, Option.pure_def] at h
  obtain ⟨intentJ, -, regionJ, -, labelJ, -, urlJ, -,
    u1, -, u2, -, u3, -, u4, -, urlS, -, u5, hg5,
    intentS, -, regionS, -, labelS, -, desc, -, tags, -, he⟩ := h
  have hscheme := guard_if_eq_some hg5
  have hurl : e.url = pyStrip urlS := by rw [← he]
  rw [hurl]
  rcases hscheme with hs | hs
  · exact Or.inl (startsWith_pyStrip _ urlS (by decide) (by decide) hs)
  · exact Or.inr (startsWith_pyStrip _ urlS (by decide) (by decide) hs)

/-- C9: every loaded catalog entry's URL starts with `http://` or
`https://`, and a record whose conversion fails (bad URL scheme, missing
required field) is excluded individually — the records around it still load. -/
theorem catalog_load_url_scheme_and_isolation :
    (∀ raw : List Json, ∀ e ∈ validateAndConvertEntries raw,
       startsWith (str "http://") e.url = true ∨ startsWith (str "https://") e.url = true) ∧
    (∀ (pre : List Json) (bad : Json) (post : List Json), convertRawEntry bad = none →
       validateAndConvertEntries (pre ++ bad :: post) =
         validateAndConvertEntries pre ++ validateAndConvertEntries post) := by
  constructor
  · intro raw e he
    obtain ⟨r, -, hr⟩ := List.mem_filterMap.mp he
    cases r with
    | obj o => exact mkCatalogEntry_url_scheme o e hr
    | null => simp [convertRawEntry] at hr
    | bool b => simp [convertRawEntry] at hr
    | num q => simp [convertRawEntry] at hr
    | str s => simp [convertRawEntry] at hr
    | arr l => simp [convertRawEntry] at hr
  · intro pre bad post hbad
    unfold validateAndConvertEntries
    rw [List.filterMap_append, List.filterMap_cons, hbad]

/-- The claim C9 theorem evaluated at a concrete dataset: the record with a
`ftp://` URL is excluded, the valid record around it still loads. -/
theorem catalog_load_url_scheme_and_isolation_witness :
    validateAndConvertEntries [goodRaw, badUrlRaw] =
      validateAndConvertEntries [goodRaw] ++ validateAndConvertEntries [] :=
  catalog_load_url_scheme_and_isolation.2 [goodRaw] badUrlRaw [] rfl

theorem dictLookup_dictInsert {α : Type} (k k' : Str) (v : α) :
    ∀ (d : List (Str × α)),
      dictLookup k (dictInsert k' v d) = if k' = k then some v else dictLookup k d
  | [] => by by_cases h : k' = k <;> simp [dictInsert, dictLookup, h]
  | (k'', v') :: d => by
    by_cases h1 : k'' = k'
    · subst h1
      by_cases h2 : k'' = k <;> simp [dictInsert, dictLookup, h2]
    · by_cases h2 : k'' = k
      · subst h2
        have hk : ¬k' = k'' := fun h => h1 h.symm
        simp [dictInsert, dictLookup, h1, hk]
      · simp [dictInsert, dictLookup, h1, h2, dictLookup_dictInsert k k' v d]

theorem find?_append_cases {α : Type} (p : α → Bool) : ∀ (l1 l2 : List α),
    (l1 ++ l2).find? p = (match l1.find? p with
      | some x => some x
      | none => l2.find? p)
  | [], l2 => by simp
  | a :: l1, l2 => by
    by_cases ha : p a = true
    · rw [List.cons_append, List.find?_cons_of_pos _ ha, List.find?_cons_of_pos _ ha]
    · have ha' : ¬p a = true := ha
      rw [List.cons_append, List.find?_cons_of_neg _ ha', List.find?_cons_of_neg _ ha',
        find?_append_cases p l1 l2]

theorem dictLookup_foldl_insert {α : Type} (f : α → Str) (k : Str) :
    ∀ (xs : List α) (d : List (Str × α)),
      dictLookup k (xs.foldl (fun d x => dictInsert (f x) x d) d) =
        (match xs.reverse.find? (fun x => decide (f x = k)) with
          | some x => some x
          | none => dictLookup k d)
  | [], d => by simp
  | x :: xs, d => by
    rw [List.foldl_cons, dictLookup_foldl_insert f k xs, List.reverse_cons,
      find?_append_cases]
    cases hf : xs.reverse.find? (fun x => decide (f x = k)) with
    | some y => rfl
    | none =>
      by_cases hx : f x = k
      · simp [List.find?, hx, dictLookup_dictInsert]
      · simp [List.find?, hx, dictLookup_dictInsert]

/-- The normalized-regions dict maps the normalized form of a configured
region back to its canonical spelling, provided no two configured regions
share a normalized form. -/
theorem normalizedRegions_lookup (regions : List Str) (c : Str)
    (hInj : ∀ r1 ∈ regions, ∀ r2 ∈ regions,
      normalizeText r1 = normalizeText r2 → r1 = r2)
    (hC : c ∈ regions) :
    dictLookup (normalizeText c) (normalizedRegionsDict regions) = some c := by
  unfold normalizedRegionsDict
  rw [dictLookup_foldl_insert]
  cases hf : regions.reverse.find? (fun r => decide (normalizeText r = normalizeText c)) with
  | some x =>
    have hx := List.find?_some hf
    have hxm := List.mem_reverse.mp (List.mem_of_find?_eq_some hf)
    have := hInj x hxm c hC (of_decide_eq_true hx)
    rw [this]
  | none =>
    exfalso
    have := List.find?_eq_none.mp hf c (List.mem_reverse.mpr hC)
    simp at this

/-- C4: any input whose sanitised, normalised form coincides with the
normalised form of a configured canonical region name (in particular any
case or accent variant of it, and the canonical name itself) validates to
that canonical name, provided the configured names have pairwise distinct
normalised forms. -/
theorem validate_region_case_accent_insensitive (cfg : ValidatorConfig) (gcm : GcmFun)
    (c v : Str)
    (hInj : ∀ r1 ∈ cfg.regions, ∀ r2 ∈ cfg.regions,
      normalizeText r1 = normalizeText r2 → r1 = r2)
    (hC : c ∈ cfg.regions)
    (hNE : normalizeText c ≠ [])
    (hVar : normalizeText (sanitizeInput (pyStrip v)) = normalizeText c) :
    (validateRegion gcm cfg v).is_valid = true ∧
    (validateRegion gcm cfg v).normalized_value = some c := by
  have hv : v ≠ [] := by
    intro hv0
    subst hv0
    exact hNE (by rw [← hVar]; rfl)
  unfold validateRegion
  rw [if_neg hv]
  simp only
  rw [hVar, normalizedRegions_lookup cfg.regions c hInj hC]
  exact ⟨rfl, rfl⟩

/-- The claim C4 theorem evaluated on the sample region list: `lombardia`,
`LOMBARDIA` and `Lómbardia` all validate to `Lombardia`, and validating the
canonical name itself returns it unchanged (idempotence). -/
theorem validate_region_case_accent_insensitive_witness :
    ((validateRegion gcmNone sampleConfig (str "lombardia")).is_valid = true ∧
      (validateRegion gcmNone sampleConfig (str "lombardia")).normalized_value =
        some (str "Lombardia")) ∧
    ((validateRegion gcmNone sampleConfig (str "LOMBARDIA")).is_valid = true ∧
      (validateRegion gcmNone sampleConfig (str "LOMBARDIA")).normalized_value =
        some (str "Lombardia")) ∧
    ((validateRegion gcmNone sampleConfig (str "Lómbardia")).is_valid = true ∧
      (validateRegion gcmNone sampleConfig (str "Lómbardia")).normalized_value =
        some (str "Lombardia")) ∧
    ((validateRegion gcmNone sampleConfig (str "Lombardia")).is_valid = true ∧
      (validateRegion gcmNone sampleConfig (str "Lombardia")).normalized_value =
        some (str "Lombardia")) :=
  ⟨validate_region_case_accent_insensitive sampleConfig gcmNone (str "Lombardia")
      (str "lombardia") (by decide) (by decide) (by decide) (by decide),
   validate_region_case_accent_insensitive sampleConfig gcmNone (str "Lombardia")
      (str "LOMBARDIA") (by decide) (by decide) (by decide) (by decide),
   validate_region_case_accent_insensitive sampleConfig gcmNone (str "Lombardia")
      (str "Lómbardia") (by decide) (by decide) (by decide) (by decide),
   validate_region_case_accent_insensitive sampleConfig gcmNone (str "Lombardia")
      (str "Lombardia") (by decide) (by decide) (by decide) (by decide)⟩

theorem getRegionSuggestions_le_three (gcm : GcmFun) (regions : List Str)
    (th : Rat) (n : Str) : (getRegionSuggestions gcm regions th n).length ≤ 3 := by
  unfold getRegionSuggestions
  split
  · simp
  · exact length_take_le' 3 _

theorem validateRegion_suggestions_le_three (gcm : GcmFun) (cfg : ValidatorConfig)
    (t : Str) : ((validateRegion gcm cfg t).suggestions.getD []).length ≤ 3 := by
  unfold validateRegion
  split
  · simp [ValidationResult.mkInvalid]
  · simp only
    split
    · simp [ValidationResult.mkValid]
    · split
      · simp [ValidationResult.mkValid]
      · split
        · simp [ValidationResult.mkValid]
        · split
          · split
            · split
              · simp [ValidationResult.mkValid]
              · simp [ValidationResult.mkInvalid]
                exact getRegionSuggestions_le_three gcm cfg.regions cfg.suggestionThreshold _
            · simp [ValidationResult.mkInvalid]
              exact getRegionSuggestions_le_three gcm cfg.regions cfg.suggestionThreshold _
          · simp [ValidationResult.mkInvalid]
            exact getRegionSuggestions_le_three gcm cfg.regions cfg.suggestionThreshold _

/-- C2: a non-empty message while a pending intent is stored either resolves
(Region Resolver accepts: the handler sends the links for the pending intent
with the resolved region, clears the pending state and ends the
conversation), or re-prompts (Region Resolver rejects: the handler replies
with the up-to-3 suggestions and stays in the region-selection state with the
pending state unchanged). -/
theorem region_selection_transitions (gcm : GcmFun) (cfg : ValidatorConfig)
    (maxLinks : Nat) (idx : CatalogIndex) (msg : Str) (ud : UserData) (pi : Str)
    (hPending : ud.pending_intent = some pi)
    (hNonempty : pyStrip msg ≠ []) :
    ((validateRegion gcm cfg (pyStrip msg)).is_valid = true →
       handleRegionSelection gcm cfg maxLinks idx msg ud =
         { response := sendLinksResponse maxLinks idx pi
             (validateRegion gcm cfg (pyStrip msg)).normalized_value,
           userData := { ud with pending_intent := none, pending_request := none },
           ret := conversationEnd }) ∧
    ((validateRegion gcm cfg (pyStrip msg)).is_valid = false →
       handleRegionSelection gcm cfg maxLinks idx msg ud =
         { response := .suggestions (pyStrip msg)
             ((validateRegion gcm cfg (pyStrip msg)).suggestions.getD []),
           userData := ud, ret := askRegionStateValue } ∧
       ((validateRegion gcm cfg (pyStrip msg)).suggestions.getD []).length ≤ 3) := by
  unfold handleRegionSelection
  rw [hPending]
  simp only
  rw [if_neg hNonempty]
  constructor
  · intro h
    rw [if_pos h]
  · intro h
    rw [if_neg (by simp [h])]
    exact ⟨rfl, validateRegion_suggestions_le_three gcm cfg (pyStrip msg)⟩

/-- The claim C2 theorem evaluated at a concrete session: a valid region
reply `Lazio` while `cup` is pending sends the links, clears the pending
state and ends the conversation. -/
theorem region_selection_transitions_witness :
    handleRegionSelection gcmNone sampleConfig 6 (buildIndex [lazioCupEntry])
        (str "Lazio") awaitingCupUserData =
      { response := sendLinksResponse 6 (buildIndex [lazioCupEntry]) (str "cup")
          (validateRegion gcmNone sampleConfig (pyStrip (str "Lazio"))).normalized_value,
        userData := { pending_intent := none, pending_request := none },
        ret := conversationEnd } :=
  (region_selection_transitions gcmNone sampleConfig 6 (buildIndex [lazioCupEntry])
    (str "Lazio") awaitingCupUserData (str "cup") rfl (by decide)).1 (by decide)

theorem pyFindAux_spec (c : Char) : ∀ (pre rest : Str), c ∉ pre →
    ∀ i, pyFindAux c (pre ++ c :: rest) i = some (pre.length + i)
  | [], rest, _, i => by simp [pyFindAux]
  | x :: xs, rest, h, i => by
    have hx : ¬x = c := fun hx => h (hx ▸ List.mem_cons_self x xs)
    have h' : c ∉ xs := fun hm => h (List.mem_cons_of_mem x hm)
    rw [List.cons_append]
    unfold pyFindAux
    rw [if_neg hx, pyFindAux_spec c xs rest h' (i + 1)]
    congr 1
    simp [List.length_cons]
    omega

theorem pyFind_spec (c : Char) (pre rest : Str) (h : c ∉ pre) :
    pyFind c (pre ++ c :: rest) = some pre.length := by
  unfold pyFind
  rw [pyFindAux_spec c pre rest h 0]
  simp

/-- C5: the classification client parses exactly the span from the first `{`
to the last `}` of the reply content, and the reply
`blah {"intent":"greeting"} trailing junk` parses to the result with intent
`greeting` and all other fields defaulted (`region=null`, `confidence=0`,
`needs_region=false`). -/
theorem classifier_brace_span_repair :
    (∀ pre obj post : Str, openBrace ∉ pre → closeBrace ∉ post →
       (∃ t, obj = openBrace :: t) → (∃ ini, obj = ini ++ [closeBrace]) →
       braceSpan (pre ++ obj ++ post) = some obj) ∧
    classifyContentResult c5ExampleContent =
      { intent := str "greeting", region := none, needs_region := false,
        confidence := 0 } := by
  constructor
  · rintro pre obj post hpre hpost ⟨t, hobjt⟩ ⟨ini, hobji⟩
    have hlen1 : obj.length ≥ 1 := by rw [hobjt]; simp
    unfold braceSpan
    have hfind : pyFind openBrace (pre ++ obj ++ post) = some pre.length := by
      rw [hobjt, List.append_assoc, List.cons_append]
      exact pyFind_spec openBrace pre (t ++ post) hpre
    have hrfind : pyRfind closeBrace (pre ++ obj ++ post) =
        some ((pre ++ obj ++ post).length - 1 - post.length) := by
      unfold pyRfind
      have hrev : (pre ++ obj ++ post).reverse =
          post.reverse ++ closeBrace :: (ini.reverse ++ pre.reverse) := by
        rw [hobji]
        simp [List.reverse_append]
      rw [hrev, pyFind_spec closeBrace post.reverse (ini.reverse ++ pre.reverse)
        (fun hm => hpost (List.mem_reverse.mp hm))]
      simp
    rw [hfind, hrfind]
    simp only
    have hlen : (pre ++ obj ++ post).length = pre.length + obj.length + post.length := by
      simp
      omega
    have he1 : (pre ++ obj ++ post).length - 1 - post.length + 1 =
        pre.length + obj.length := by omega
    rw [he1]
    have htake : (pre ++ obj ++ post).take (pre.length + obj.length) = pre ++ obj := by
      have : (pre ++ obj).length = pre.length + obj.length := by simp
      exact List.take_left' this
    rw [htake, List.drop_left]
  · rfl

/-- The claim C5 span theorem evaluated at the concrete malformed reply. -/
theorem classifier_brace_span_repair_witness :
    braceSpan (str "blah " ++
        (openBrace :: (str "\"intent\":\"greeting\"" ++ [closeBrace])) ++
        str " trailing junk") =
      some (openBrace :: (str "\"intent\":\"greeting\"" ++ [closeBrace])) :=
  classifier_brace_span_repair.1 (str "blah ")
    (openBrace :: (str "\"intent\":\"greeting\"" ++ [closeBrace]))
    (str " trailing junk") (by decide) (by decide)
    ⟨str "\"intent\":\"greeting\"" ++ [closeBrace], rfl⟩
    ⟨openBrace :: str "\"intent\":\"greeting\"", rfl⟩

/-- C6: the classification call makes at most 3 POST attempts, sleeping the
exponential-backoff prefix of `[1, 2]` seconds (base 1, factor 2) between
them; after 3 network-level failures it degrades to the default unknown
classification; a reply that was received but fails parsing is never
retried — exactly one POST is made and the default classification is
returned immediately. -/
theorem classifier_retry_policy (o1 o2 : PostOracle) (resp : HttpResponse)
    (h1 : ∀ j, o1 j = .error ())
    (h2 : o2 0 = .ok resp)
    (h3 : resp.statusOk = true)
    (h4 : (classifyRepair resp.content).isNone = true) :
    (∀ o : PostOracle, (retryPost o).calls ≤ 3 ∧
       (retryPost o).delays = [1, 2].take ((retryPost o).calls - 1)) ∧
    (classifyInternalRun o1 = (defaultClassificationData, 3) ∧
       (retryPost o1).delays = [1, 2]) ∧
    ((classifyInternalRun o2).2 = 1 ∧
       (classifyInternalRun o2).1 = defaultClassificationData) := by
  refine ⟨?_, ?_, ?_⟩
  · intro o
    cases ho0 : o 0 with
    | ok r => simp [retryPost, retryLoop, ho0]
    | error e =>
      cases ho1 : o 1 with
      | ok r => simp [retryPost, retryLoop, ho0, ho1]
      | error e1 =>
        cases ho2 : o 2 with
        | ok r => simp [retryPost, retryLoop, ho0, ho1, ho2]
        | error e2 => simp [retryPost, retryLoop, ho0, ho1, ho2]
  · have hr : retryPost o1 = { result := .error (), calls := 3, delays := [1, 1 * 2] } := by
      simp [retryPost, retryLoop, h1 0, h1 1, h1 2]
    constructor
    · simp [classifyInternalRun, hr]
    · simp [hr]
  · have hnone : classifyRepair resp.content = none := Option.isNone_iff_eq_none.mp h4
    have hr : retryPost o2 = { result := .ok resp, calls := 1, delays := [] } := by
      simp [retryPost, retryLoop, h2]
    constructor
    · simp [classifyInternalRun, hr, h3]
    · simp [classifyInternalRun, hr, h3, hnone]

/-- The claim C6 theorem evaluated at two concrete oracles: one failing all
three attempts at the network level, one replying immediately with content
that contains no JSON object. -/
theorem classifier_retry_policy_witness :
    (classifyInternalRun alwaysFailOracle = (defaultClassificationData, 3) ∧
       (retryPost alwaysFailOracle).delays = [1, 2]) ∧
    ((classifyInternalRun malformedReplyOracle).2 = 1 ∧
       (classifyInternalRun malformedReplyOracle).1 = defaultClassificationData) :=
  (classifier_retry_policy alwaysFailOracle malformedReplyOracle
    { statusOk := true, content := str "no json here" }
    (fun _ => rfl) rfl rfl rfl).2

/-- C7 as frozen is false: the `lru_cache` key of `_cached_classify` is the
argument tuple `(text_hash, text)`, which contains the raw text.  The inputs
`A` and `a` have the same normalized form (hence the same `text_hash`), yet
the second call misses the cache and a second remote call is made. -/
theorem classification_cache_counterexample :
    cacheKeyHash (str "A") = cacheKeyHash (str "a") ∧
    (classifyAsyncStep stubInternal (str "a")
        (classifyAsyncStep stubInternal (str "A") freshCacheState).2).2.internalCalls = 2 :=
  ⟨rfl, rfl⟩

/-- C7 (amended): the classification cache is keyed by the pair (hash of the
normalized text, exact raw text); two `classify` calls with the same raw text
return the same classification and the second one makes no further remote
call (given a positive cache capacity). -/
theorem classification_cache_amended (internal : Str → List (Str × Json)) (text : Str)
    (st : ClassifyCacheState) (h : 1 ≤ st.maxsize) :
    (classifyAsyncStep internal text (classifyAsyncStep internal text st).2).1 =
      (classifyAsyncStep internal text st).1 ∧
    (classifyAsyncStep internal text (classifyAsyncStep internal text st).2).2.internalCalls =
      (classifyAsyncStep internal text st).2.internalCalls := by
  by_cases he : text = [] ∨ pyStrip text = []
  · simp [classifyAsyncStep, he]
  · simp only [classifyAsyncStep, if_neg he]
    cases hl : cacheLookup (cacheKeyHash text, text) st.cache with
    | some v => simp [classifyCached, hl, cacheLookup]
    | none =>
      obtain ⟨n, hn⟩ : ∃ n, st.maxsize = n + 1 := by
        cases hm : st.maxsize with
        | zero => rw [hm] at h; exact absurd h (by simp)
        | succ n => exact ⟨n, rfl⟩
      simp [classifyCached, hl, hn, cacheLookup]

/-- The amended C7 theorem evaluated at a concrete repeated input. -/
theorem classification_cache_amended_witness :
    1 ≤ freshCacheState.maxsize ∧
    ((classifyAsyncStep stubInternal (str "ciao")
        (classifyAsyncStep stubInternal (str "ciao") freshCacheState).2).1 =
      (classifyAsyncStep stubInternal (str "ciao") freshCacheState).1 ∧
     (classifyAsyncStep stubInternal (str "ciao")
        (classifyAsyncStep stubInternal (str "ciao") freshCacheState).2).2.internalCalls =
      (classifyAsyncStep stubInternal (str "ciao") freshCacheState).2.internalCalls) :=
  ⟨by decide,
   classification_cache_amended stubInternal (str "ciao") freshCacheState (by decide)⟩

end PastaLinkBot
